import Mathlib

/-!
Shallow embedding of the OCS2 HPIPM interface layer
(`ocs2_sqp/hpipm_catkin/src/HpipmInterface.cpp`).

Scalars (`scalar_t`, i.e. `double` in the source) are modelled as `ℚ`.
Raw data arrays (`Eigen` matrices accessed through `.data()` pointers) are
modelled as lists of rationals; the dense linear-algebra operations used by
`HpipmInterface::Impl::getRiccatiZeroStage` are modelled with Mathlib
matrices over `ℚ`.

The HPIPM C library itself (the `d_ocp_qp_...` calls) is external to the
repository; its boundary is modelled by explicit parameters: memory-size
query functions, and an interior-point oracle producing a solution and a
status.
-/

open Matrix

namespace Ocs2

/-- Vector of scalars, modelling `ocs2::vector_t` (dense `Eigen` vector of
`scalar_t`). -/
abbrev Vec := List ℚ

/-- Dense matrix of scalars stored as a list of rows, modelling
`ocs2::matrix_t` data consumed element-wise. -/
abbrev Mat := List (List ℚ)

/-- Dot product of two scalar vectors. -/
def dot (a b : Vec) : ℚ := (List.zipWith (fun x y => x * y) a b).sum

/-- Matrix-vector product `M * x` for the row-list matrix representation. -/
def matVec (M : Mat) (x : Vec) : Vec := M.map (fun row => dot row x)

/-- Componentwise vector sum, modelling `Eigen` vector `+`. -/
def vecAdd (a b : Vec) : Vec := List.zipWith (fun x y => x + y) a b

/-- Componentwise vector negation, modelling `Eigen` unary `-`. -/
def vecNeg (a : Vec) : Vec := a.map (fun x => -x)

/-- Componentwise vector difference, modelling `Eigen` vector `-`. -/
def vecSub (a b : Vec) : Vec := List.zipWith (fun x y => x - y) a b

/-- Model of `ocs2::VectorFunctionLinearApproximation`: an affine map with
value `f`, state Jacobian `dfdx` and input Jacobian `dfdu`.  Used both for
dynamics and for (equality) constraints. -/
structure VectorFunctionLinearApproximation where
  f : Vec
  dfdx : Mat
  dfdu : Mat
deriving DecidableEq

/-- Model of `ocs2::ScalarFunctionQuadraticApproximation`: quadratic cost
data with gradients `dfdx`, `dfdu` and Hessian blocks `dfdxx`, `dfduu`,
`dfdux`. -/
structure ScalarFunctionQuadraticApproximation where
  dfdx : Vec
  dfdu : Vec
  dfdxx : Mat
  dfduu : Mat
  dfdux : Mat
deriving DecidableEq

/-- Model of the anonymous-namespace `MemoryBlock` of
`HpipmInterface.cpp`: a reusable malloc backed buffer.  The `size` field
models `size_`; `allocCount` counts how many `malloc` calls have happened,
so that reallocation is observable in the model. -/
structure MemoryBlock where
  size : Nat
  allocCount : Nat
deriving DecidableEq

/-- Model of `MemoryBlock::reserve`: reallocate only when the requested
size strictly exceeds the current one, otherwise do nothing.  The model
takes the successful-allocation path; in the source a failed `malloc`
throws `std::bad_alloc` (a fatal error by the spec). -/
def MemoryBlock.reserve (m : MemoryBlock) (size : Nat) : MemoryBlock :=
  if m.size < size then { size := size, allocCount := m.allocCount + 1 } else m

/-- Model of `ocs2::OcpSize`: horizon length `N` and the per-stage
dimension arrays handed to `d_ocp_qp_dim_set_all`. -/
structure OcpSize where
  N : Nat
  nx : List Nat
  nu : List Nat
  nbx : List Nat
  nbu : List Nat
  ng : List Nat
  nsbx : List Nat
  nsbu : List Nat
  nsg : List Nat
deriving DecidableEq

/-- Model of `ocs2::hpipm_interface::Settings`: the solver configuration
fields compared by `isSettingsEqual` and applied by `applySettings`.
The scalar (`double`) fields are modelled as `ℚ`; `hpipmMode`,
`warm_start`, `pred_corr` and `ric_alg` are integral codes. -/
structure Settings where
  hpipmMode : Nat
  iter_max : Nat
  alpha_min : ℚ
  mu0 : ℚ
  tol_stat : ℚ
  tol_eq : ℚ
  tol_ineq : ℚ
  tol_comp : ℚ
  reg_prim : ℚ
  warm_start : Nat
  pred_corr : Nat
  ric_alg : Nat
deriving DecidableEq

/-- Model of `HpipmInterface::Impl::isSizeEqual`: field-by-field comparison
of the stored `ocpSize_` with a requested size (the `&&` chain of the
source, modelled with short-circuiting Bool conjunction). -/
def isSizeEqual (stored req : OcpSize) : Bool :=
  decide (stored.N = req.N) &&
  decide (stored.nu = req.nu) &&
  decide (stored.nx = req.nx) &&
  decide (stored.nbu = req.nbu) &&
  decide (stored.nbx = req.nbx) &&
  decide (stored.ng = req.ng) &&
  decide (stored.nsbu = req.nsbu) &&
  decide (stored.nsbx = req.nsbx) &&
  decide (stored.nsg = req.nsg)

/-- Model of `HpipmInterface::Impl::isSettingsEqual`: field-by-field
comparison of the stored settings with requested ones. -/
def isSettingsEqual (stored req : Settings) : Bool :=
  decide (stored.hpipmMode = req.hpipmMode) &&
  decide (stored.iter_max = req.iter_max) &&
  decide (stored.alpha_min = req.alpha_min) &&
  decide (stored.mu0 = req.mu0) &&
  decide (stored.tol_stat = req.tol_stat) &&
  decide (stored.tol_eq = req.tol_eq) &&
  decide (stored.tol_ineq = req.tol_ineq) &&
  decide (stored.tol_comp = req.tol_comp) &&
  decide (stored.reg_prim = req.reg_prim) &&
  decide (stored.warm_start = req.warm_start) &&
  decide (stored.pred_corr = req.pred_corr) &&
  decide (stored.ric_alg = req.ric_alg)

/-- Model of the assignment `ocpSize.nx[0] = 0` performed at the top of
`HpipmInterface::Impl::initializeMemory`. -/
def setNx0Zero (sz : OcpSize) : OcpSize := { sz with nx := sz.nx.set 0 0 }

/-- Memory-size queries of the external HPIPM library
(`d_ocp_qp_dim_memsize`, `d_ocp_qp_memsize`, `d_ocp_qp_sol_memsize`,
`d_ocp_qp_ipm_arg_memsize`, `d_ocp_qp_ipm_ws_memsize`), modelled as
abstract functions of the data they depend on: the dimension struct
(determined by the stored `OcpSize`) and, for the workspace, the argument
struct after the settings are applied. -/
structure HpipmWorkspaceFns where
  dimMemsize : Nat → Nat
  qpMemsize : OcpSize → Nat
  qpSolMemsize : OcpSize → Nat
  ipmArgMemsize : OcpSize → Nat
  ipmWsMemsize : OcpSize → Settings → Nat

/-- Model of the mutable state of `HpipmInterface::Impl`: the stored
settings and size, and the five reusable memory blocks.  The HPIPM view
structs (`dim_`, `qp_`, `qpSol_`, `arg_`, `workspace_`) are interior
pointers into these blocks and carry no additional model state. -/
structure ImplState where
  settings : Settings
  ocpSize : OcpSize
  dimMem : MemoryBlock
  qpMem : MemoryBlock
  qpSolMem : MemoryBlock
  ipmArgMem : MemoryBlock
  ipmMem : MemoryBlock
deriving DecidableEq

/-- Model of `HpipmInterface::Impl::initializeMemory(OcpSize, Settings)`
(exposed as `HpipmInterface::resize`, the `prepare` of the spec): first
force `nx[0] := 0`, then return unchanged when both the size and the
settings compare equal to the stored ones, otherwise store the new
size/settings and grow each memory block to the externally queried
requirement. -/
def initMemory (hp : HpipmWorkspaceFns) (st : ImplState) (ocpSizeIn : OcpSize)
    (settings : Settings) : ImplState :=
  let ocpSize := setNx0Zero ocpSizeIn
  if isSizeEqual st.ocpSize ocpSize && isSettingsEqual st.settings settings then st
  else
    { settings := settings
      ocpSize := ocpSize
      dimMem := st.dimMem.reserve (hp.dimMemsize ocpSize.N)
      qpMem := st.qpMem.reserve (hp.qpMemsize ocpSize)
      qpSolMem := st.qpSolMem.reserve (hp.qpSolMemsize ocpSize)
      ipmArgMem := st.ipmArgMem.reserve (hp.ipmArgMemsize ocpSize)
      ipmMem := st.ipmMem.reserve (hp.ipmWsMemsize ocpSize settings) }

/-- Per-stage QP data assembled by `HpipmInterface::Impl::solve` and handed
to `d_ocp_qp_set_all`: dynamics `AA, BB, bb`, cost `QQ, RR, SS, qq, rr`,
and general constraints `CC, DD` with lower/upper bounds `llg, uug`.
When the `constraints` pointer is null the constraint arrays stay empty
(the source leaves the corresponding pointers unset). -/
structure QpData where
  AA : List Mat
  BB : List Mat
  bb : List Vec
  QQ : List Mat
  RR : List Mat
  SS : List Mat
  qq : List Vec
  rr : List Vec
  CC : List Mat
  DD : List Mat
  llg : List Vec
  uug : List Vec

/-- Dynamics residual column of the transcription: stage 0 absorbs the
fixed initial state (`b0 = dynamics[0].f; b0 += dynamics[0].dfdx * x0`),
later stages pass `dynamics[k].f` through unchanged. -/
def dynamicsb (x0 : Vec) : List VectorFunctionLinearApproximation → List Vec
  | [] => []
  | d0 :: rest => vecAdd d0.f (matVec d0.dfdx x0) :: rest.map (fun d => d.f)

/-- Cost input-gradient column of the transcription: stage 0 absorbs the
fixed initial state (`r0 = cost[0].dfdu; r0 += cost[0].dfdux * x0`), later
stages pass `cost[k].dfdu` through unchanged. -/
def costr (x0 : Vec) : List ScalarFunctionQuadraticApproximation → List Vec
  | [] => []
  | c0 :: rest => vecAdd c0.dfdu (matVec c0.dfdux x0) :: rest.map (fun c => c.dfdu)

/-- Constraint bound column of the transcription: every stage gets
`-constr[k].f`, and stage 0 is additionally shifted by
`-constr[0].dfdx * x0` (the initial-state substitution). The same vector
is used for both the lower and the upper bound in the source. -/
def constraintBound (x0 : Vec) : List VectorFunctionLinearApproximation → List Vec
  | [] => []
  | c0 :: rest =>
    vecSub (vecNeg c0.f) (matVec c0.dfdx x0) :: rest.map (fun c => vecNeg c.f)

/-- Model of the transcription phase of `HpipmInterface::Impl::solve`
(lines building `AA .. uug` before `d_ocp_qp_set_all`): per-stage QP data
from the LQ approximations, with the stage-0 initial-state elimination.
The source indexes the arrays up to `ocpSize_.N`; here the list lengths
play that role (the source asserts `dynamics.size() == N` and
`cost.size() == N + 1`). -/
def transcribe (x0 : Vec) (dynamics : List VectorFunctionLinearApproximation)
    (cost : List ScalarFunctionQuadraticApproximation)
    (constraints : Option (List VectorFunctionLinearApproximation)) : QpData :=
  let ctr := constraints.getD []
  { AA := dynamics.map (fun d => d.dfdx)
    BB := dynamics.map (fun d => d.dfdu)
    bb := dynamicsb x0 dynamics
    QQ := cost.map (fun c => c.dfdxx)
    RR := cost.map (fun c => c.dfduu)
    SS := cost.map (fun c => c.dfdux)
    qq := cost.map (fun c => c.dfdx)
    rr := costr x0 cost
    CC := ctr.map (fun c => c.dfdx)
    DD := ctr.map (fun c => c.dfdu)
    llg := constraintBound x0 ctr
    uug := constraintBound x0 ctr }

/-- Modelled from the spec: the five-valued status taxonomy of the
`hpipm_status` enum returned by the external HPIPM interior-point solver
(`d_ocp_qp_ipm_get_status`); the solver internals are not part of the
sources under verification. -/
inductive HpipmStatus where
  | solved
  | maxIterReached
  | minStepReached
  | nanDetected
  | inconsEqConstraints
deriving DecidableEq

/-- Modelled from the spec: the outcome of one `d_ocp_qp_ipm_solve` call as
observed through the getters used by the interface: a status and the
per-stage primal solution entries (`d_ocp_qp_sol_get_x`,
`d_ocp_qp_sol_get_u` fill caller buffers element-wise). -/
structure IpmSolution where
  status : HpipmStatus
  x : Nat → Nat → ℚ
  u : Nat → Nat → ℚ

/-- Model of `HpipmInterface::Impl::getStateSolution`: a trajectory of
`N + 1` entries whose first entry is a verbatim copy of the argument `x0`
and whose entry `k ≥ 1` is a buffer of `nx[k]` scalars filled from the
interior-point solution. -/
def getStateSolution (sz : OcpSize) (x0 : Vec) (sol : IpmSolution) : List Vec :=
  x0 :: (List.range sz.N).map (fun k => (List.range (sz.nx.getD (k + 1) 0)).map (sol.x (k + 1)))

/-- Model of `HpipmInterface::Impl::getInputSolution`: a trajectory of `N`
entries, entry `k` a buffer of `nu[k]` scalars filled from the
interior-point solution. -/
def getInputSolution (sz : OcpSize) (sol : IpmSolution) : List Vec :=
  (List.range sz.N).map (fun k => (List.range (sz.nu.getD k 0)).map (sol.u k))

/-- Result of one `HpipmInterface::Impl::solve` call.  Besides the outputs
(trajectories and status), the model threads through the post-call values
of the by-reference C++ arguments `dynamics`, `cost` and `constraints`:
the source only reads them (the folded stage-0 terms `b0`, `r0` and the
bound vectors live in local copies), so their post-call values are the
expressions recorded here. -/
structure SolveOutput where
  stateTrajectory : List Vec
  inputTrajectory : List Vec
  status : HpipmStatus
  dynamicsAfter : List VectorFunctionLinearApproximation
  costAfter : List ScalarFunctionQuadraticApproximation
  constraintsAfter : Option (List VectorFunctionLinearApproximation)

/-- Model of `HpipmInterface::Impl::solve`: transcribe the LQ data into the
QP, call the external interior-point solver (the oracle `ipm`), extract
the state and input trajectories unconditionally, and return the status
reported by the solver.  No path throws: the function is total. -/
def solve (st : ImplState) (ipm : QpData → IpmSolution) (x0 : Vec)
    (dynamics : List VectorFunctionLinearApproximation)
    (cost : List ScalarFunctionQuadraticApproximation)
    (constraints : Option (List VectorFunctionLinearApproximation)) : SolveOutput :=
  let qp := transcribe x0 dynamics cost constraints
  let sol := ipm qp
  { stateTrajectory := getStateSolution st.ocpSize x0 sol
    inputTrajectory := getInputSolution st.ocpSize sol
    status := sol.status
    dynamicsAfter := dynamics
    costAfter := cost
    constraintsAfter := constraints }

/-- Computable matrix inverse over `ℚ` (Cramer rule), modelling the dense
`Eigen` `.inverse()` call of the source; it agrees with Mathlib's
noncomputable `Matrix.inv` (see `matInv_eq_inv`). -/
def matInv {n : Nat} (A : Matrix (Fin n) (Fin n) ℚ) : Matrix (Fin n) (Fin n) ℚ :=
  A.det⁻¹ • A.adjugate

/-- Stage-0 Riccati quantities reconstructed by
`HpipmInterface::Impl::getRiccatiZeroStage`.  The row dimension `nx0` of
the outputs is taken from `A0` (`int nx0 = A0.rows()` comment
notwithstanding, the assignments resize the outputs to the dimensions of
the right-hand-side expressions). -/
structure RiccatiZeroStage (nx0 nx1 nu0 : Nat) where
  P0 : Matrix (Fin nx0) (Fin nx0) ℚ
  K0 : Matrix (Fin nu0) (Fin nx0) ℚ
  p0 : Fin nx0 → ℚ
  k0 : Fin nu0 → ℚ

/-- Model of `HpipmInterface::Impl::getRiccatiZeroStage`.  `P1`, `p1` and
`Lr0` are the stage-1 Riccati matrices and the stage-0 factor fetched from
the HPIPM workspace (`d_ocp_qp_ipm_get_ric_P/p/Lr`), modelled as inputs;
`R0` is accepted but unused, exactly as in the source, and the fetched
`fake_k0` is discarded.  The source computes `Lr0_inv = Lr0.inverse()` and
uses `Lr0_inv.transpose() * Lr0_inv` as the input-cost inverse. -/
def getRiccatiZeroStage {nx0 nx1 nu0 : Nat}
    (A0 : Matrix (Fin nx1) (Fin nx0) ℚ) (B0 : Matrix (Fin nx1) (Fin nu0) ℚ)
    (b0 : Fin nx1 → ℚ) (Q0 : Matrix (Fin nx0) (Fin nx0) ℚ)
    (R0 : Matrix (Fin nu0) (Fin nu0) ℚ) (S0 : Matrix (Fin nu0) (Fin nx0) ℚ)
    (q0 : Fin nx0 → ℚ) (r0 : Fin nu0 → ℚ)
    (P1 : Matrix (Fin nx1) (Fin nx1) ℚ) (p1 : Fin nx1 → ℚ)
    (Lr0 : Matrix (Fin nu0) (Fin nu0) ℚ) : RiccatiZeroStage nx0 nx1 nu0 :=
  let Lr0inv := matInv Lr0
  { K0 := -(Lr0invᵀ * Lr0inv) * (S0 + B0ᵀ * P1 * A0)
    k0 := (-(Lr0invᵀ * Lr0inv)) *ᵥ (r0 + B0ᵀ *ᵥ p1 + (B0ᵀ * P1) *ᵥ b0)
    P0 := Q0 + A0ᵀ * P1 * A0 -
      (S0 + B0ᵀ * P1 * A0)ᵀ * (Lr0invᵀ * Lr0inv) * (S0 + B0ᵀ * P1 * A0)
    p0 := q0 + A0ᵀ *ᵥ p1 + (A0ᵀ * P1) *ᵥ b0 -
      ((S0 + B0ᵀ * P1 * A0)ᵀ * (Lr0invᵀ * Lr0inv)) *ᵥ
        (r0 + B0ᵀ *ᵥ p1 + (B0ᵀ * P1) *ᵥ b0) }

/-- Concrete initial state used to instantiate the theorems below at a
concrete input. -/
def wX0 : Vec := [10]

/-- Concrete dynamics approximations for a two-stage horizon. -/
def wDyn : List VectorFunctionLinearApproximation :=
  [{ f := [5], dfdx := [[2]], dfdu := [[3]] },
   { f := [7], dfdx := [[1]], dfdu := [[4]] }]

/-- Concrete cost approximations for stages 0, 1 and the terminal stage. -/
def wCst : List ScalarFunctionQuadraticApproximation :=
  [{ dfdx := [1], dfdu := [2], dfdxx := [[1]], dfduu := [[1]], dfdux := [[6]] },
   { dfdx := [1], dfdu := [2], dfdxx := [[1]], dfduu := [[1]], dfdux := [[1]] },
   { dfdx := [3], dfdu := [], dfdxx := [[1]], dfduu := [], dfdux := [] }]

/-- Concrete constraint approximations for stages 0, 1 and the terminal
stage. -/
def wCtr : List VectorFunctionLinearApproximation :=
  [{ f := [2], dfdx := [[1]], dfdu := [[1]] },
   { f := [3], dfdx := [[1]], dfdu := [[1]] },
   { f := [4], dfdx := [[1]], dfdu := [] }]

/-- Concrete solver settings. -/
def wSettings : Settings :=
  { hpipmMode := 1, iter_max := 30, alpha_min := 0, mu0 := 1, tol_stat := 0,
    tol_eq := 0, tol_ineq := 0, tol_comp := 0, reg_prim := 0, warm_start := 0,
    pred_corr := 1, ric_alg := 0 }

/-- Concrete problem size with `nx[0] = 0`, as stored after preparation. -/
def wOcpSize : OcpSize :=
  { N := 2, nx := [0, 1, 1], nu := [1, 1, 0], nbx := [0, 0, 0], nbu := [0, 0, 0],
    ng := [1, 1, 1], nsbx := [0, 0, 0], nsbu := [0, 0, 0], nsg := [0, 0, 0] }

/-- Concrete problem size differing from `wOcpSize` only in `nx[0]`. -/
def wOcpSizeAlt : OcpSize := { wOcpSize with nx := [9, 1, 1] }

/-- Concrete memory-size queries standing in for the external HPIPM size
functions. -/
def wFns : HpipmWorkspaceFns :=
  { dimMemsize := fun n => n + 1, qpMemsize := fun sz => sz.N + 2,
    qpSolMemsize := fun sz => sz.N + 3, ipmArgMemsize := fun sz => sz.N + 4,
    ipmWsMemsize := fun sz stg => sz.N + stg.iter_max }

/-- Concrete prepared solver state holding `wOcpSize` and `wSettings`. -/
def wImplState : ImplState :=
  { settings := wSettings, ocpSize := wOcpSize, dimMem := ⟨3, 1⟩, qpMem := ⟨4, 1⟩,
    qpSolMem := ⟨5, 1⟩, ipmArgMem := ⟨6, 1⟩, ipmMem := ⟨32, 1⟩ }

/-- Concrete interior-point oracle reporting a solved status and zero
primal entries. -/
def wIpm : QpData → IpmSolution :=
  fun _ => { status := HpipmStatus.solved, x := fun _ _ => 0, u := fun _ _ => 0 }

/-- Concrete stage-0 factor used to test the orientation of the input-cost
inverse: lower triangular and not symmetric. -/
def cexLr0 : Matrix (Fin 2) (Fin 2) ℚ := !![1, 0; 1, 1]

/-- Concrete stage-0 cross cost block: the identity. -/
def cexS0 : Matrix (Fin 2) (Fin 2) ℚ := 1

/-- Concrete stage-0 state Jacobian: zero, into a one-dimensional next
state. -/
def cexA0 : Matrix (Fin 1) (Fin 2) ℚ := 0

/-- Concrete stage-0 input Jacobian: zero. -/
def cexB0 : Matrix (Fin 1) (Fin 2) ℚ := 0

/-- Concrete stage-1 Riccati curvature: zero. -/
def cexP1 : Matrix (Fin 1) (Fin 1) ℚ := 0

/-- Computable and Mathlib matrix inverses agree over `ℚ`. -/
theorem matInv_eq_inv {n : Nat} (A : Matrix (Fin n) (Fin n) ℚ) : matInv A = A⁻¹ := by
  rw [matInv, Matrix.inv_def, Ring.inverse_eq_inv]

/-- Size comparison is reflexive. -/
theorem isSizeEqual_self (sz : OcpSize) : isSizeEqual sz sz = true := by
  simp [isSizeEqual]

/-- Settings comparison is reflexive. -/
theorem isSettingsEqual_self (s : Settings) : isSettingsEqual s s = true := by
  simp [isSettingsEqual]

/-- C1: the transcription built by `Impl::solve` folds the fixed initial
state into stage 0 — the stage-0 dynamics residual is `f + dfdx * x0`, the
stage-0 cost input gradient is `dfdu + dfdux * x0`, and the stage-0
constraint bound is `-f - dfdx * x0` — while for every stage `k ≥ 1` the
QP data `A, B, b, Q, R, S, q, r` equals the stage-`k` approximation data
unchanged. -/
theorem transcription_stage_folding (x0 : Vec)
    (dyn : List VectorFunctionLinearApproximation)
    (cst : List ScalarFunctionQuadraticApproximation)
    (ctr : List VectorFunctionLinearApproximation) (k : Nat) (hk : 1 ≤ k) :
    (transcribe x0 dyn cst (some ctr)).bb[0]? =
      dyn[0]?.map (fun d => vecAdd d.f (matVec d.dfdx x0)) ∧
    (transcribe x0 dyn cst (some ctr)).rr[0]? =
      cst[0]?.map (fun c => vecAdd c.dfdu (matVec c.dfdux x0)) ∧
    (transcribe x0 dyn cst (some ctr)).llg[0]? =
      ctr[0]?.map (fun c => vecSub (vecNeg c.f) (matVec c.dfdx x0)) ∧
    (transcribe x0 dyn cst (some ctr)).AA[k]? = dyn[k]?.map (fun d => d.dfdx) ∧
    (transcribe x0 dyn cst (some ctr)).BB[k]? = dyn[k]?.map (fun d => d.dfdu) ∧
    (transcribe x0 dyn cst (some ctr)).bb[k]? = dyn[k]?.map (fun d => d.f) ∧
    (transcribe x0 dyn cst (some ctr)).QQ[k]? = cst[k]?.map (fun c => c.dfdxx) ∧
    (transcribe x0 dyn cst (some ctr)).RR[k]? = cst[k]?.map (fun c => c.dfduu) ∧
    (transcribe x0 dyn cst (some ctr)).SS[k]? = cst[k]?.map (fun c => c.dfdux) ∧
    (transcribe x0 dyn cst (some ctr)).qq[k]? = cst[k]?.map (fun c => c.dfdx) ∧
    (transcribe x0 dyn cst (some ctr)).rr[k]? = cst[k]?.map (fun c => c.dfdu) := by
  obtain ⟨m, rfl⟩ : ∃ m, k = m + 1 := ⟨k - 1, by omega⟩
  refine ⟨?_, ?_, ?_, ?_, ?_, ?_, ?_, ?_, ?_, ?_, ?_⟩ <;>
    cases dyn <;> cases cst <;> cases ctr <;>
      simp [transcribe, dynamicsb, costr, constraintBound, List.getElem?_map]

/-- C1 witness: the stage-folding theorem evaluated on a concrete
two-stage problem at `k = 1`. -/
theorem transcription_stage_folding_witness :
    (transcribe wX0 wDyn wCst (some wCtr)).bb[0]? =
      wDyn[0]?.map (fun d => vecAdd d.f (matVec d.dfdx wX0)) ∧
    (transcribe wX0 wDyn wCst (some wCtr)).rr[0]? =
      wCst[0]?.map (fun c => vecAdd c.dfdu (matVec c.dfdux wX0)) ∧
    (transcribe wX0 wDyn wCst (some wCtr)).llg[0]? =
      wCtr[0]?.map (fun c => vecSub (vecNeg c.f) (matVec c.dfdx wX0)) ∧
    (transcribe wX0 wDyn wCst (some wCtr)).AA[1]? = wDyn[1]?.map (fun d => d.dfdx) ∧
    (transcribe wX0 wDyn wCst (some wCtr)).BB[1]? = wDyn[1]?.map (fun d => d.dfdu) ∧
    (transcribe wX0 wDyn wCst (some wCtr)).bb[1]? = wDyn[1]?.map (fun d => d.f) ∧
    (transcribe wX0 wDyn wCst (some wCtr)).QQ[1]? = wCst[1]?.map (fun c => c.dfdxx) ∧
    (transcribe wX0 wDyn wCst (some wCtr)).RR[1]? = wCst[1]?.map (fun c => c.dfduu) ∧
    (transcribe wX0 wDyn wCst (some wCtr)).SS[1]? = wCst[1]?.map (fun c => c.dfdux) ∧
    (transcribe wX0 wDyn wCst (some wCtr)).qq[1]? = wCst[1]?.map (fun c => c.dfdx) ∧
    (transcribe wX0 wDyn wCst (some wCtr)).rr[1]? = wCst[1]?.map (fun c => c.dfdu) :=
  transcription_stage_folding wX0 wDyn wCst wCtr 1 (by decide)

/-- C3: the lower and upper general-constraint bounds passed to the
interior-point solver are the same vector at every stage, equal to the
negated constraint residual with the stage-0 initial-state adjustment, so
an equality constraint is represented as a coincident two-sided bound. -/
theorem equality_constraint_coincident_bounds (x0 : Vec)
    (dyn : List VectorFunctionLinearApproximation)
    (cst : List ScalarFunctionQuadraticApproximation)
    (ctr : List VectorFunctionLinearApproximation) :
    (transcribe x0 dyn cst (some ctr)).llg = (transcribe x0 dyn cst (some ctr)).uug ∧
    (transcribe x0 dyn cst (some ctr)).uug[0]? =
      ctr[0]?.map (fun c => vecSub (vecNeg c.f) (matVec c.dfdx x0)) ∧
    ∀ k, 1 ≤ k → (transcribe x0 dyn cst (some ctr)).uug[k]? =
      ctr[k]?.map (fun c => vecNeg c.f) := by
  refine ⟨rfl, ?_, ?_⟩
  · cases ctr <;> simp [transcribe, constraintBound]
  · intro k hk
    obtain ⟨m, rfl⟩ : ∃ m, k = m + 1 := ⟨k - 1, by omega⟩
    cases ctr <;> simp [transcribe, constraintBound, List.getElem?_map]

/-- C3 witness: coincident bounds evaluated on a concrete constrained
problem at stage 1. -/
theorem equality_constraint_coincident_bounds_witness :
    (transcribe wX0 wDyn wCst (some wCtr)).llg = (transcribe wX0 wDyn wCst (some wCtr)).uug ∧
    (transcribe wX0 wDyn wCst (some wCtr)).uug[1]? =
      wCtr[1]?.map (fun c => vecNeg c.f) :=
  ⟨(equality_constraint_coincident_bounds wX0 wDyn wCst wCtr).1,
   (equality_constraint_coincident_bounds wX0 wDyn wCst wCtr).2.2 1 (by decide)⟩

/-- C5: `MemoryBlock::reserve` is grow-only — a request at or below the
current size leaves the block unchanged (no reallocation), a larger
request sets the stored size to the request, and the size never decreases
over any sequence of reserve calls. -/
theorem reserve_grow_only (m : MemoryBlock) (s : Nat) (ss : List Nat) :
    (s ≤ m.size → MemoryBlock.reserve m s = m) ∧
    (m.size < s → (MemoryBlock.reserve m s).size = s) ∧
    m.size ≤ (ss.foldl MemoryBlock.reserve m).size := by
  refine ⟨fun h => ?_, fun h => ?_, ?_⟩
  · unfold MemoryBlock.reserve
    rw [if_neg (by omega)]
  · unfold MemoryBlock.reserve
    rw [if_pos h]
  · induction ss generalizing m with
    | nil => exact le_refl _
    | cons a as ih =>
      rw [List.foldl_cons]
      refine le_trans ?_ (ih (MemoryBlock.reserve m a))
      by_cases hc : m.size < a
      · unfold MemoryBlock.reserve
        rw [if_pos hc]
        exact le_of_lt hc
      · unfold MemoryBlock.reserve
        rw [if_neg hc]

/-- C5 witness: a block of size 5 is untouched by a request of 3 and grows
to 7 on a request of 7. -/
theorem reserve_grow_only_witness :
    MemoryBlock.reserve ⟨5, 1⟩ 3 = ⟨5, 1⟩ ∧ (MemoryBlock.reserve ⟨5, 1⟩ 7).size = 7 :=
  ⟨(reserve_grow_only ⟨5, 1⟩ 3 []).1 (by decide),
   (reserve_grow_only ⟨5, 1⟩ 7 []).2.1 (by decide)⟩

/-- C4: `Impl::initializeMemory` (the `prepare` of the spec) returns the
stored state unchanged when the requested size (after the `nx[0] := 0`
normalization it applies) and the settings compare equal to the stored
ones, and calling it twice with identical arguments leaves the state of
the first call untouched — in particular no memory block is reallocated on
the second call. -/
theorem prepare_idempotent (hp : HpipmWorkspaceFns) (st : ImplState) (sz : OcpSize)
    (stg : Settings) :
    (isSizeEqual st.ocpSize (setNx0Zero sz) = true →
      isSettingsEqual st.settings stg = true →
      initMemory hp st sz stg = st) ∧
    initMemory hp (initMemory hp st sz stg) sz stg = initMemory hp st sz stg := by
  constructor
  · intro h1 h2
    simp [initMemory, h1, h2]
  · by_cases hc : (isSizeEqual st.ocpSize (setNx0Zero sz) &&
      isSettingsEqual st.settings stg) = true
    · simp [initMemory, hc]
    · simp [initMemory, hc, isSizeEqual_self, isSettingsEqual_self]

/-- C4 witness: preparing an already prepared state is the identity, and a
repeated preparation from any state is absorbed. -/
theorem prepare_idempotent_witness :
    initMemory wFns wImplState wOcpSize wSettings = wImplState ∧
    initMemory wFns (initMemory wFns wImplState wOcpSize wSettings) wOcpSize wSettings =
      initMemory wFns wImplState wOcpSize wSettings :=
  ⟨(prepare_idempotent wFns wImplState wOcpSize wSettings).1 (by decide) (by decide),
   (prepare_idempotent wFns wImplState wOcpSize wSettings).2⟩

/-- C10: `Impl::initializeMemory` forces the stage-0 state dimension of
the requested size to zero before comparing and storing it — two requests
differing only in `nx[0]` prepare identically, and the stored size has
`nx[0] = 0` after every call. -/
theorem nx0_forced_zero (hp : HpipmWorkspaceFns) (st : ImplState) (sz1 sz2 : OcpSize)
    (stg : Settings) :
    (setNx0Zero sz1 = setNx0Zero sz2 →
      initMemory hp st sz1 stg = initMemory hp st sz2 stg) ∧
    (initMemory hp st sz1 stg).ocpSize.nx.getD 0 0 = 0 := by
  constructor
  · intro h
    simp [initMemory, h]
  · by_cases hc : (isSizeEqual st.ocpSize (setNx0Zero sz1) &&
      isSettingsEqual st.settings stg) = true
    · have h1 : isSizeEqual st.ocpSize (setNx0Zero sz1) = true := by
        have hc2 := hc
        rw [Bool.and_eq_true] at hc2
        exact hc2.1
      have hnx : st.ocpSize.nx = (setNx0Zero sz1).nx := by
        simp only [isSizeEqual, Bool.and_eq_true, decide_eq_true_eq] at h1
        obtain ⟨⟨⟨⟨⟨⟨⟨⟨-, -⟩, hnx⟩, -⟩, -⟩, -⟩, -⟩, -⟩, -⟩ := h1
        exact hnx
      simp only [initMemory]
      rw [if_pos hc, hnx]
      simp only [setNx0Zero]
      cases sz1.nx <;> simp
    · simp only [initMemory]
      rw [if_neg hc]
      simp only [setNx0Zero]
      cases sz1.nx <;> simp

/-- C10 witness: preparing with `wOcpSize` and with its variant that only
changes `nx[0]` gives the same state, whose stored `nx[0]` is zero. -/
theorem nx0_forced_zero_witness :
    initMemory wFns wImplState wOcpSize wSettings =
      initMemory wFns wImplState wOcpSizeAlt wSettings ∧
    (initMemory wFns wImplState wOcpSize wSettings).ocpSize.nx.getD 0 0 = 0 :=
  ⟨(nx0_forced_zero wFns wImplState wOcpSize wOcpSizeAlt wSettings).1 (by decide),
   (nx0_forced_zero wFns wImplState wOcpSize wOcpSizeAlt wSettings).2⟩

/-- C6: `Impl::solve` always returns one of the five status outcomes of
the interior-point solver and never throws (the model is total), and for
every returned status — solved or not — the state and input trajectory
outputs have already been filled from the interior-point solution. -/
theorem solve_status_taxonomy (st : ImplState) (ipm : QpData → IpmSolution) (x0 : Vec)
    (dyn : List VectorFunctionLinearApproximation)
    (cst : List ScalarFunctionQuadraticApproximation)
    (ctr : Option (List VectorFunctionLinearApproximation)) :
    ((solve st ipm x0 dyn cst ctr).status = HpipmStatus.solved ∨
     (solve st ipm x0 dyn cst ctr).status = HpipmStatus.maxIterReached ∨
     (solve st ipm x0 dyn cst ctr).status = HpipmStatus.minStepReached ∨
     (solve st ipm x0 dyn cst ctr).status = HpipmStatus.nanDetected ∨
     (solve st ipm x0 dyn cst ctr).status = HpipmStatus.inconsEqConstraints) ∧
    (solve st ipm x0 dyn cst ctr).stateTrajectory =
      getStateSolution st.ocpSize x0 (ipm (transcribe x0 dyn cst ctr)) ∧
    (solve st ipm x0 dyn cst ctr).inputTrajectory =
      getInputSolution st.ocpSize (ipm (transcribe x0 dyn cst ctr)) := by
  refine ⟨?_, rfl, rfl⟩
  cases h : (solve st ipm x0 dyn cst ctr).status <;> simp

/-- C7: `Impl::solve` does not mutate the LQ approximations passed to it
by reference — the post-call values of the dynamics, cost and constraint
arrays equal their pre-call values (the folded stage-0 residual and
gradient live in local copies `b0` and `r0`). -/
theorem solve_preserves_input_approximations (st : ImplState)
    (ipm : QpData → IpmSolution) (x0 : Vec)
    (dyn : List VectorFunctionLinearApproximation)
    (cst : List ScalarFunctionQuadraticApproximation)
    (ctr : Option (List VectorFunctionLinearApproximation)) :
    (solve st ipm x0 dyn cst ctr).dynamicsAfter = dyn ∧
    (solve st ipm x0 dyn cst ctr).costAfter = cst ∧
    (solve st ipm x0 dyn cst ctr).constraintsAfter = ctr :=
  ⟨rfl, rfl, rfl⟩

/-- C8: after every solve over a horizon of length `N`, the state
trajectory has `N + 1` entries, its first entry is the caller-supplied
`x0` verbatim (independently of the interior-point solution), entry
`k ≥ 1` has dimension `nx[k]`, and the input trajectory has `N` entries
with entry `k` of dimension `nu[k]`. -/
theorem solution_trajectory_shapes (st : ImplState) (ipm : QpData → IpmSolution)
    (x0 : Vec) (dyn : List VectorFunctionLinearApproximation)
    (cst : List ScalarFunctionQuadraticApproximation)
    (ctr : Option (List VectorFunctionLinearApproximation)) :
    (solve st ipm x0 dyn cst ctr).stateTrajectory.length = st.ocpSize.N + 1 ∧
    (solve st ipm x0 dyn cst ctr).stateTrajectory[0]? = some x0 ∧
    (∀ k, 1 ≤ k → k ≤ st.ocpSize.N →
      ((solve st ipm x0 dyn cst ctr).stateTrajectory[k]?).map List.length =
        some (st.ocpSize.nx.getD k 0)) ∧
    (solve st ipm x0 dyn cst ctr).inputTrajectory.length = st.ocpSize.N ∧
    (∀ k, k < st.ocpSize.N →
      ((solve st ipm x0 dyn cst ctr).inputTrajectory[k]?).map List.length =
        some (st.ocpSize.nu.getD k 0)) := by
  refine ⟨?_, ?_, ?_, ?_, ?_⟩
  · simp [solve, getStateSolution]
  · simp [solve, getStateSolution]
  · intro k h1 h2
    obtain ⟨m, rfl⟩ : ∃ m, k = m + 1 := ⟨k - 1, by omega⟩
    simp [solve, getStateSolution, List.getElem?_map,
      List.getElem?_range (show m < st.ocpSize.N by omega)]
  · simp [solve, getInputSolution]
  · intro k h
    simp [solve, getInputSolution, List.getElem?_map, List.getElem?_range h]

/-- C8 witness: trajectory shapes evaluated on the concrete two-stage
problem with the concrete oracle, at state stage 1 and input stage 0. -/
theorem solution_trajectory_shapes_witness :
    (solve wImplState wIpm wX0 wDyn wCst (some wCtr)).stateTrajectory.length =
      wImplState.ocpSize.N + 1 ∧
    ((solve wImplState wIpm wX0 wDyn wCst (some wCtr)).stateTrajectory[1]?).map List.length =
      some (wImplState.ocpSize.nx.getD 1 0) ∧
    ((solve wImplState wIpm wX0 wDyn wCst (some wCtr)).inputTrajectory[0]?).map List.length =
      some (wImplState.ocpSize.nu.getD 0 0) :=
  ⟨(solution_trajectory_shapes wImplState wIpm wX0 wDyn wCst (some wCtr)).1,
   (solution_trajectory_shapes wImplState wIpm wX0 wDyn wCst (some wCtr)).2.2.1 1
     (by decide) (by decide),
   (solution_trajectory_shapes wImplState wIpm wX0 wDyn wCst (some wCtr)).2.2.2.2 0
     (by decide)⟩

/-- C2 counterexample: at a concrete lower-triangular, non-symmetric
factor `Lr0` (with `B0 = 0`, `P1 = 0`, `S0 = 1`), the stage-0 feedback
gain computed by `getRiccatiZeroStage` differs from the spec's formula
`K0 = -(Lr0ᵀ Lr0)⁻¹ (S0 + B0ᵀ P1 A0)`: the code computes the inverse with
the transposes the other way around. -/
theorem riccati_zero_stage_spec_formula_refuted :
    (getRiccatiZeroStage cexA0 cexB0 0 0 0 cexS0 0 0 cexP1 0 cexLr0).K0 ≠
      -((cexLr0ᵀ * cexLr0)⁻¹) * (cexS0 + cexB0ᵀ * cexP1 * cexA0) := by
  have hinv : matInv cexLr0 = !![1, 0; -1, 1] := by
    rw [matInv_eq_inv]
    exact Matrix.inv_eq_right_inv
      (by norm_num [cexLr0, Matrix.mul_fin_two]; rw [Matrix.one_fin_two])
  have ht : cexLr0ᵀ * cexLr0 = !![2, 1; 1, 1] := by
    have h2 : (cexLr0)ᵀ = !![1, 1; 0, 1] := (Matrix.transposeᵣ_eq _).symm
    rw [h2]
    norm_num [cexLr0, Matrix.mul_fin_two]
  have hspec : (cexLr0ᵀ * cexLr0)⁻¹ = !![1, -1; -1, 2] := by
    rw [ht]
    exact Matrix.inv_eq_right_inv
      (by norm_num [Matrix.mul_fin_two]; rw [Matrix.one_fin_two])
  have hK : (getRiccatiZeroStage cexA0 cexB0 0 0 0 cexS0 0 0 cexP1 0 cexLr0).K0 =
      !![-2, 1; 1, -1] := by
    simp only [getRiccatiZeroStage, hinv, cexS0, cexB0, cexP1, cexA0]
    have h2 : (!![(1:ℚ), 0; -1, 1])ᵀ = !![1, -1; 0, 1] := (Matrix.transposeᵣ_eq _).symm
    rw [h2]
    have h3 : (0 : Matrix (Fin 1) (Fin 2) ℚ)ᵀ = 0 := Matrix.transpose_zero
    rw [h3]
    norm_num [Matrix.mul_fin_two]
  rw [hK, hspec]
  intro h
  have h00 := congrFun (congrFun h 0) 0
  simp [Matrix.mul_apply, Fin.sum_univ_two, cexS0, cexB0, cexP1, cexA0,
    Matrix.one_apply] at h00

/-- C2 amended: the stage-0 Riccati quantities returned by
`getRiccatiZeroStage` satisfy the closed-form LQR backward-step equations
with the input-cost inverse taken as `(Lr0 Lr0ᵀ)⁻¹`, i.e. as
`(Lr0⁻¹)ᵀ (Lr0⁻¹)` — in particular
`K0 = -(Lr0 Lr0ᵀ)⁻¹ (S0 + B0ᵀ P1 A0)`, and analogously for `k0`, `P0`,
`p0`. -/
theorem riccati_zero_stage_closed_form {nx0 nx1 nu0 : Nat}
    (A0 : Matrix (Fin nx1) (Fin nx0) ℚ) (B0 : Matrix (Fin nx1) (Fin nu0) ℚ)
    (b0 : Fin nx1 → ℚ) (Q0 : Matrix (Fin nx0) (Fin nx0) ℚ)
    (R0 : Matrix (Fin nu0) (Fin nu0) ℚ) (S0 : Matrix (Fin nu0) (Fin nx0) ℚ)
    (q0 : Fin nx0 → ℚ) (r0 : Fin nu0 → ℚ)
    (P1 : Matrix (Fin nx1) (Fin nx1) ℚ) (p1 : Fin nx1 → ℚ)
    (Lr0 : Matrix (Fin nu0) (Fin nu0) ℚ) :
    (getRiccatiZeroStage A0 B0 b0 Q0 R0 S0 q0 r0 P1 p1 Lr0).K0 =
      -((Lr0 * Lr0ᵀ)⁻¹) * (S0 + B0ᵀ * P1 * A0) ∧
    (getRiccatiZeroStage A0 B0 b0 Q0 R0 S0 q0 r0 P1 p1 Lr0).k0 =
      (-((Lr0 * Lr0ᵀ)⁻¹)) *ᵥ (r0 + B0ᵀ *ᵥ p1 + (B0ᵀ * P1) *ᵥ b0) ∧
    (getRiccatiZeroStage A0 B0 b0 Q0 R0 S0 q0 r0 P1 p1 Lr0).P0 =
      Q0 + A0ᵀ * P1 * A0 -
        (S0 + B0ᵀ * P1 * A0)ᵀ * ((Lr0 * Lr0ᵀ)⁻¹) * (S0 + B0ᵀ * P1 * A0) ∧
    (getRiccatiZeroStage A0 B0 b0 Q0 R0 S0 q0 r0 P1 p1 Lr0).p0 =
      q0 + A0ᵀ *ᵥ p1 + (A0ᵀ * P1) *ᵥ b0 -
        ((S0 + B0ᵀ * P1 * A0)ᵀ * ((Lr0 * Lr0ᵀ)⁻¹)) *ᵥ
          (r0 + B0ᵀ *ᵥ p1 + (B0ᵀ * P1) *ᵥ b0) := by
  have key : (matInv Lr0)ᵀ * matInv Lr0 = (Lr0 * Lr0ᵀ)⁻¹ := by
    rw [matInv_eq_inv, Matrix.mul_inv_rev, Matrix.transpose_nonsing_inv]
  refine ⟨?_, ?_, ?_, ?_⟩ <;> simp only [getRiccatiZeroStage, key]

end Ocs2
